import Mathlib

/-
Verification of the geolab / geolysis bearing-capacity engine.

The definitions below are a shallow embedding of the Python sources:
  * geolab/bearing_capacity/terzaghi.py            (TerzaghiBCF, TBC)
  * geolysis/bearing_capacity/ubc/__init__.py      (UltimateBearingCapacity)
  * geolysis/core/bearing_capacity/ubc_4_soils/hansen_ubc.py
  * geolysis/core/bearing_capacity/abc_4_soils/abc_4_cohl_soils.py
  * geolysis/core/foundation.py
Machine floats are modelled by exact reals; fallible constructors return
Except values.  Helpers of the repository that are not present in the
source snapshot are modelled from the specification and carry a doc
comment saying so.
-/

open Real

/-- Conversion from degrees to radians, as performed by the deg2rad decorator
in geolab and by the degree-based trig wrappers of the geolysis utils. -/
noncomputable def radOfDeg (x : ℝ) : ℝ := x * π / 180

/-- Degree-based sine wrapper (geolysis utils trig functions take degrees). -/
noncomputable def sind (x : ℝ) : ℝ := Real.sin (radOfDeg x)

/-- Degree-based cosine wrapper (geolysis utils trig functions take degrees). -/
noncomputable def cosd (x : ℝ) : ℝ := Real.cos (radOfDeg x)

/-- Degree-based tangent wrapper (geolysis utils trig functions take degrees). -/
noncomputable def tand (x : ℝ) : ℝ := Real.tan (radOfDeg x)

/-- Modelled from the spec: geolysis.core.utils.cot is not under src; the
cotangent used by the Nc closed form, in degrees, is the reciprocal of tan. -/
noncomputable def cotd (x : ℝ) : ℝ := 1 / tand x

/-- Modelled from the spec: the single fixed decimal precision of the engine
(geolab.DECIMAL_PLACES and the geolysis.core.utils.round_ decorator are not
under src).  The spec requires one fixed precision across the engine and the
reference tests pin two decimal places, so rounding maps x to the nearest
multiple of 1/100. -/
noncomputable def roundDP (x : ℝ) : ℝ := ((round (x * 100) : ℤ) : ℝ) / 100

/-- numpy.isclose with its default tolerances (rtol = 1e-5, atol = 1e-8), as
used by geolab terzaghi.py on the friction angle in radians. -/
def npIsclose (a b : ℝ) : Prop := |a - b| ≤ 1e-8 + 1e-5 * |b|

noncomputable instance (a b : ℝ) : Decidable (npIsclose a b) :=
  inferInstanceAs (Decidable (_ ≤ _))

/-- Modelled from the spec: geolysis.core.utils.isclose is not under src; the
spec requires the friction angle to be compared to zero with a floating-point
tolerance rather than exact equality, modelled as absolute tolerance 1e-9
(applied to the angle in degrees, as at the call site in hansen_ubc.py). -/
def specIsclose (a b : ℝ) : Prop := |a - b| ≤ 1e-9

noncomputable instance (a b : ℝ) : Decidable (specIsclose a b) :=
  inferInstanceAs (Decidable (_ ≤ _))

/-- Footing shapes (geolysis.core.foundation.Shape). -/
inductive Shape
  | strip
  | circle
  | square
  | rectangle
deriving DecidableEq

/-- Validated range of the applied-load inclination, from the load_angle
setter of geolysis/bearing_capacity/ubc/__init__.py (0 <= val <= 90). -/
def loadAngleValid (α : ℝ) : Prop := 0 ≤ α ∧ α ≤ 90

namespace TerzaghiBCF

/-- Raw Terzaghi Nq as a function of the friction angle in radians
(TerzaghiBCF._nq in geolab/bearing_capacity/terzaghi.py). -/
noncomputable def nqRaw (phi : ℝ) : ℝ :=
  Real.exp ((3 * π / 2 - phi) * Real.tan phi) /
    (2 * (Real.cos (π / 4 + phi / 2)) ^ 2)

/-- Terzaghi Nq of the friction angle in degrees: the deg2rad constructor
converts to radians, _nq is evaluated and the result rounded
(TerzaghiBCF.nq). -/
noncomputable def nq (phi : ℝ) : ℝ := roundDP (nqRaw (radOfDeg phi))

/-- Terzaghi Nc (TerzaghiBCF.nc): 5.70 when the friction angle in radians is
numpy-close to zero, otherwise the rounded cot-based closed form. -/
noncomputable def nc (phi : ℝ) : ℝ :=
  if npIsclose (radOfDeg phi) 0 then 5.70
  else roundDP ((1 / Real.tan (radOfDeg phi)) * (nqRaw (radOfDeg phi) - 1))

/-- The ngamma_type configuration choice of TerzaghiBCF. -/
inductive NgammaType
  | meyerhof
  | hansen
deriving DecidableEq

/-- Raw Terzaghi Ngamma before rounding (body of TerzaghiBCF.ngamma). -/
noncomputable def ngammaRaw (t : NgammaType) (phi : ℝ) : ℝ :=
  match t with
  | .meyerhof => (nqRaw (radOfDeg phi) - 1) * Real.tan (1.4 * radOfDeg phi)
  | .hansen => 1.8 * (nqRaw (radOfDeg phi) - 1) * Real.tan (radOfDeg phi)

/-- Terzaghi Ngamma (TerzaghiBCF.ngamma), rounded. -/
noncomputable def ngamma (t : NgammaType) (phi : ℝ) : ℝ := roundDP (ngammaRaw t phi)

end TerzaghiBCF

namespace TBC

/-- TBC.qult_4_strip_footing: cohesion, unit weight, foundation depth and
width, the ngamma variant and the friction angle in degrees. -/
noncomputable def qult_4_strip_footing (cohesion gamma fd fw : ℝ)
    (t : TerzaghiBCF.NgammaType) (phi : ℝ) : ℝ :=
  roundDP (cohesion * TerzaghiBCF.nc phi + gamma * fd * TerzaghiBCF.nq phi +
    0.5 * gamma * fw * TerzaghiBCF.ngamma t phi)

/-- TBC.qult_4_square_footing. -/
noncomputable def qult_4_square_footing (cohesion gamma fd fw : ℝ)
    (t : TerzaghiBCF.NgammaType) (phi : ℝ) : ℝ :=
  roundDP (1.2 * cohesion * TerzaghiBCF.nc phi + gamma * fd * TerzaghiBCF.nq phi +
    0.4 * gamma * fw * TerzaghiBCF.ngamma t phi)

/-- TBC.qult_4_circular_footing. -/
noncomputable def qult_4_circular_footing (cohesion gamma fd fw : ℝ)
    (t : TerzaghiBCF.NgammaType) (phi : ℝ) : ℝ :=
  roundDP (1.2 * cohesion * TerzaghiBCF.nc phi + gamma * fd * TerzaghiBCF.nq phi +
    0.3 * gamma * fw * TerzaghiBCF.ngamma t phi)

end TBC

namespace HansenBearingCapacityFactor

/-- Raw Hansen Nq before rounding (body of HansenBearingCapacityFactor.n_q);
the friction angle is in degrees. -/
noncomputable def n_q_raw (sfa : ℝ) : ℝ :=
  (tand (45 + sfa / 2)) ^ 2 * Real.exp (π * tand sfa)

/-- Hansen Nq (HansenBearingCapacityFactor.n_q), rounded. -/
noncomputable def n_q (sfa : ℝ) : ℝ := roundDP (n_q_raw sfa)

/-- Hansen Nc (HansenBearingCapacityFactor.n_c): 5.14 at a friction angle
close to zero, otherwise cot(sfa) times (n_q(sfa) - 1), where n_q is the
already rounded factor; the round_ decorator rounds the result. -/
noncomputable def n_c (sfa : ℝ) : ℝ :=
  roundDP (if specIsclose sfa 0 then 5.14 else cotd sfa * (n_q sfa - 1))

/-- Raw Hansen Ngamma before the outer rounding (body of
HansenBearingCapacityFactor.n_gamma); it consumes the rounded n_q. -/
noncomputable def n_gamma_raw (sfa : ℝ) : ℝ := 1.8 * (n_q sfa - 1) * tand sfa

/-- Hansen Ngamma (HansenBearingCapacityFactor.n_gamma), rounded. -/
noncomputable def n_gamma (sfa : ℝ) : ℝ := roundDP (n_gamma_raw sfa)

end HansenBearingCapacityFactor

namespace HansenShapeFactor

/-- HansenShapeFactor.s_c. -/
noncomputable def s_c (f_w f_l : ℝ) (footing_type : Shape) : ℝ :=
  roundDP (match footing_type with
    | .strip => 10
    | .rectangle => 1 + 0.2 * f_w / f_l
    | .square => 1.3
    | .circle => 1.3)

/-- HansenShapeFactor.s_q. -/
noncomputable def s_q (f_w f_l : ℝ) (footing_type : Shape) : ℝ :=
  roundDP (match footing_type with
    | .strip => 1.0
    | .rectangle => 1 + 0.2 * f_w / f_l
    | .square => 1.2
    | .circle => 1.2)

/-- HansenShapeFactor.s_gamma. -/
noncomputable def s_gamma (f_w f_l : ℝ) (footing_type : Shape) : ℝ :=
  roundDP (match footing_type with
    | .strip => 1.0
    | .rectangle => 1 - 0.4 * f_w / f_l
    | .square => 0.8
    | .circle => 0.6)

end HansenShapeFactor

/-- Modelled from the spec: the depth-to-width ratio helper d2w lives in
geolysis/core/bearing_capacity/ubc_4_soils/__init__.py, which is not under
src; it is modelled from the depth-factor clamp of the spec and the commented-out
copy in geolysis/bearing_capacity/ubc/__init__.py: the arctan of the ratio
when it exceeds 1, the raw ratio otherwise. -/
noncomputable def d2w (f_d f_w : ℝ) : ℝ :=
  if f_d / f_w > 1 then Real.arctan (f_d / f_w) else f_d / f_w

namespace HansenDepthFactor

/-- HansenDepthFactor.d_c. -/
noncomputable def d_c (f_d f_w : ℝ) : ℝ := roundDP (1 + 0.4 * d2w f_d f_w)

/-- HansenDepthFactor.d_q: the d_c value above 25 degrees of friction,
otherwise the phi-dependent expression. -/
noncomputable def d_q (sfa f_d f_w : ℝ) : ℝ :=
  if sfa > 25.0 then d_c f_d f_w
  else roundDP (1 + 2 * tand sfa * (1 - sind sfa) ^ 2 * d2w f_d f_w)

/-- HansenDepthFactor.d_gamma. -/
noncomputable def d_gamma : ℝ := roundDP 1.0

end HansenDepthFactor

namespace HansenInclinationFactor

/-- HansenInclinationFactor.i_c (rounded by the round_ decorator). -/
noncomputable def i_c (cohesion load_angle f_w f_l : ℝ) : ℝ :=
  roundDP (1 - cosd load_angle / (2 * cohesion * f_w * f_l))

/-- HansenInclinationFactor.i_q; note that in the source this classmethod
carries no round_ decorator. -/
noncomputable def i_q (load_angle : ℝ) : ℝ :=
  1 - 1.5 * cosd load_angle / sind load_angle

/-- HansenInclinationFactor.i_gamma, the square of i_q; no round_ decorator
in the source. -/
noncomputable def i_gamma (load_angle : ℝ) : ℝ := (i_q load_angle) ^ 2

end HansenInclinationFactor

/-- Water correction of the surcharge term
(UltimateBearingCapacity._surcharge_term in
geolysis/bearing_capacity/ubc/__init__.py); none stands for an absent
(infinite) ground water level. -/
noncomputable def surchargeWaterCorr (depth : ℝ) (gwl : Option ℝ) : ℝ :=
  match gwl with
  | none => 1.0
  | some w => min (1 - 0.5 * max (depth - w) 0 / depth) 1

/-- Water correction of the embedment term
(UltimateBearingCapacity._embedment_term). -/
noncomputable def embedmentWaterCorr (depth width : ℝ) (gwl : Option ℝ) : ℝ :=
  match gwl with
  | none => 1.0
  | some w => min (0.5 + 0.5 * max (w - depth) 0 / width) 1

/-- Snapshot of an UltimateBearingCapacity instance
(geolysis/bearing_capacity/ubc/__init__.py): the stored soil and geometry
attributes together with the factor values the concrete method supplies
through its n_, s_, d_ and i_ properties. -/
structure UBCState where
  cohesion : ℝ
  moist_unit_wgt : ℝ
  depth : ℝ
  effective_width : ℝ
  ground_water_level : Option ℝ
  n_c : ℝ
  n_q : ℝ
  n_gamma : ℝ
  s_c : ℝ
  s_q : ℝ
  s_gamma : ℝ
  d_c : ℝ
  d_q : ℝ
  d_gamma : ℝ
  i_c : ℝ
  i_q : ℝ
  i_gamma : ℝ

/-- UltimateBearingCapacity._cohesion_term. -/
noncomputable def cohesionTerm (coef : ℝ) (s : UBCState) : ℝ :=
  coef * s.cohesion * s.n_c * s.s_c * s.d_c * s.i_c

/-- UltimateBearingCapacity._surcharge_term, including the water
correction; the effective overburden pressure is moist_unit_wgt * depth. -/
noncomputable def surchargeTerm (s : UBCState) : ℝ :=
  (s.moist_unit_wgt * s.depth) * s.n_q * s.s_q * s.d_q * s.i_q *
    surchargeWaterCorr s.depth s.ground_water_level

/-- UltimateBearingCapacity._embedment_term, including the water
correction. -/
noncomputable def embedmentTerm (coef : ℝ) (s : UBCState) : ℝ :=
  coef * s.moist_unit_wgt * s.effective_width * s.n_gamma * s.s_gamma *
    s.d_gamma * s.i_gamma *
    embedmentWaterCorr s.depth s.effective_width s.ground_water_level

/-- UltimateBearingCapacity.bearing_capacity: the three-term sum with the
base coefficients 1.0 and 0.5. -/
noncomputable def bearing_capacity (s : UBCState) : ℝ :=
  cohesionTerm 1.0 s + surchargeTerm s + embedmentTerm 0.5 s

/-- Constructor arguments of HansenUBC
(geolysis/core/bearing_capacity/ubc_4_soils/hansen_ubc.py): soil record,
foundation geometry, optional water level, load inclination and
eccentricity. -/
structure HansenUBCInput where
  friction_angle : ℝ
  cohesion : ℝ
  moist_unit_wgt : ℝ
  depth : ℝ
  width : ℝ
  length : ℝ
  footing_shape : Shape
  water_level : Option ℝ
  load_angle : ℝ
  e : ℝ

/-- Modelled from the spec: the term helpers _coh_expr, _surcharge_expr and
_emb_expr of the core-tree UltimateBearingCapacity base class live in
geolysis/core/bearing_capacity/ubc_4_soils/__init__.py, which is not under
src.  Their product structure is modelled from the superposition of the spec
formula and the HansenUBC docstring; the factor functions, the explicit 0.5
embedment coefficient and the outer rounding are from hansen_ubc.py
(HansenUBC.bearing_capacity). -/
noncomputable def hansenBC (s : HansenUBCInput) : ℝ :=
  roundDP
    (s.cohesion * HansenBearingCapacityFactor.n_c s.friction_angle *
        HansenShapeFactor.s_c s.width s.length s.footing_shape *
        HansenDepthFactor.d_c s.depth s.width *
        HansenInclinationFactor.i_c s.cohesion s.load_angle s.width s.length +
      (s.moist_unit_wgt * s.depth) * HansenBearingCapacityFactor.n_q s.friction_angle *
        HansenShapeFactor.s_q s.width s.length s.footing_shape *
        HansenDepthFactor.d_q s.friction_angle s.depth s.width *
        HansenInclinationFactor.i_q s.load_angle *
        surchargeWaterCorr s.depth s.water_level +
      0.5 * (s.moist_unit_wgt * (s.width - 2 * s.e) *
        HansenBearingCapacityFactor.n_gamma s.friction_angle *
        HansenShapeFactor.s_gamma s.width s.length s.footing_shape *
        HansenDepthFactor.d_gamma *
        HansenInclinationFactor.i_gamma s.load_angle *
        embedmentWaterCorr s.depth (s.width - 2 * s.e) s.water_level))

/-- Error raised by the allowable-bearing-capacity module
(abc_4_cohl_soils.py SettlementError; the spec names it
SettlementExceeded). -/
inductive ABCError
  | settlementExceeded
deriving DecidableEq

/-- MAX_TOL_SETTLEMENT of abc_4_cohl_soils.py. -/
def MAX_TOL_SETTLEMENT : ℚ := 25.4

/-- Foundation data consumed by the allowable-capacity classes. -/
structure FoundationSizeQ where
  depth : ℚ
  width : ℚ
deriving DecidableEq

/-- Stored state of the six allowable-capacity classes; they all keep the
SPT number and the foundation size, the Terzaghi variants also keep the
water depth. -/
structure ABCState where
  corrected_spt_number : ℚ
  tol_settlement : ℚ
  water_depth : Option ℚ
  foundation_size : FoundationSizeQ
deriving DecidableEq

/-- The _chk_settlement guard of abc_4_cohl_soils.py, shared by all six
constructors: settlement above MAX_TOL_SETTLEMENT is rejected. -/
def chk_settlement (tol_settlement max_tol_settlement : ℚ) : Except ABCError Unit :=
  if tol_settlement > max_tol_settlement then .error .settlementExceeded
  else .ok ()

/-- BowlesABC4PadFoundation.__init__. -/
def mkBowlesABC4PadFoundation (n tol : ℚ) (fs : FoundationSizeQ) :
    Except ABCError ABCState :=
  match chk_settlement tol MAX_TOL_SETTLEMENT with
  | .error e => .error e
  | .ok _ => .ok ⟨n, tol, none, fs⟩

/-- BowlesABC4MatFoundation.__init__. -/
def mkBowlesABC4MatFoundation (n tol : ℚ) (fs : FoundationSizeQ) :
    Except ABCError ABCState :=
  match chk_settlement tol MAX_TOL_SETTLEMENT with
  | .error e => .error e
  | .ok _ => .ok ⟨n, tol, none, fs⟩

/-- MeyerhofABC4PadFoundation.__init__. -/
def mkMeyerhofABC4PadFoundation (n tol : ℚ) (fs : FoundationSizeQ) :
    Except ABCError ABCState :=
  match chk_settlement tol MAX_TOL_SETTLEMENT with
  | .error e => .error e
  | .ok _ => .ok ⟨n, tol, none, fs⟩

/-- MeyerhofABC4MatFoundation.__init__. -/
def mkMeyerhofABC4MatFoundation (n tol : ℚ) (fs : FoundationSizeQ) :
    Except ABCError ABCState :=
  match chk_settlement tol MAX_TOL_SETTLEMENT with
  | .error e => .error e
  | .ok _ => .ok ⟨n, tol, none, fs⟩

/-- TerzaghiABC4PadFoundation.__init__ (also stores the water depth). -/
def mkTerzaghiABC4PadFoundation (n tol water_depth : ℚ) (fs : FoundationSizeQ) :
    Except ABCError ABCState :=
  match chk_settlement tol MAX_TOL_SETTLEMENT with
  | .error e => .error e
  | .ok _ => .ok ⟨n, tol, some water_depth, fs⟩

/-- TerzaghiABC4MatFoundation.__init__. -/
def mkTerzaghiABC4MatFoundation (n tol water_depth : ℚ) (fs : FoundationSizeQ) :
    Except ABCError ABCState :=
  match chk_settlement tol MAX_TOL_SETTLEMENT with
  | .error e => .error e
  | .ok _ => .ok ⟨n, tol, some water_depth, fs⟩

/-- A soil-property mapping; a none field models an absent key
(soil_properties dict of geolysis/bearing_capacity/ubc/__init__.py). -/
structure SoilMapping where
  friction_angle : Option ℚ
  cohesion : Option ℚ
  moist_unit_wgt : Option ℚ
deriving DecidableEq

/-- Errors of UltimateBearingCapacity.__init__ and its property setters; the
code raises ValueError in both cases, the spec names them MissingProperty
and InvalidProperty. -/
inductive UBCInitError
  | missingProperty (key : String)
  | invalidProperty (key : String)
deriving DecidableEq

/-- The validated soil record stored by a successfully constructed
UltimateBearingCapacity object. -/
structure UBCSoil where
  friction_angle : ℚ
  cohesion : ℚ
  moist_unit_wgt : ℚ
  load_angle : ℚ
deriving DecidableEq

/-- UltimateBearingCapacity.__init__ of
geolysis/bearing_capacity/ubc/__init__.py: the three keys are checked for
presence first, then the friction_angle and cohesion setters reject negative
values, then the load_angle setter enforces 0 <= val <= 90; the moist unit
weight is stored without any check. -/
def mkUltimateBearingCapacity (m : SoilMapping) (load_angle : ℚ) :
    Except UBCInitError UBCSoil :=
  match m.friction_angle with
  | none => .error (.missingProperty "friction_angle")
  | some fa =>
    match m.cohesion with
    | none => .error (.missingProperty "cohesion")
    | some c =>
      match m.moist_unit_wgt with
      | none => .error (.missingProperty "moist_unit_wgt")
      | some muw =>
        if fa < 0 then .error (.invalidProperty "friction_angle")
        else if c < 0 then .error (.invalidProperty "cohesion")
        else if 0 ≤ load_angle ∧ load_angle ≤ 90 then .ok ⟨fa, c, muw, load_angle⟩
        else .error (.invalidProperty "load_angle")

/-! ### Arithmetic facts about the rounding helper -/

theorem roundDP_of_mul_eq {x : ℝ} (k : ℤ) (h : x * 100 = (k : ℝ)) : roundDP x = x := by
  have hx : x = (k : ℝ) / 100 := by
    rw [eq_div_iff (by norm_num : (100 : ℝ) ≠ 0), h]
  unfold roundDP
  rw [h, round_intCast]
  exact hx.symm

theorem roundDP_idem (x : ℝ) : roundDP (roundDP x) = roundDP x := by
  apply roundDP_of_mul_eq (round (x * 100))
  unfold roundDP
  field_simp

theorem roundDP_mono {x y : ℝ} (h : x ≤ y) : roundDP x ≤ roundDP y := by
  unfold roundDP
  have h1 : round (x * 100) ≤ round (y * 100) := by
    rw [round_eq, round_eq]
    exact Int.floor_mono (by linarith)
  have h2 : ((round (x * 100) : ℤ) : ℝ) ≤ ((round (y * 100) : ℤ) : ℝ) := by
    exact_mod_cast h1
  linarith

theorem roundDP_eq_div (x : ℝ) (k : ℤ) (h1 : (k : ℝ) ≤ x * 100 + 1 / 2)
    (h2 : x * 100 + 1 / 2 < (k : ℝ) + 1) : roundDP x = (k : ℝ) / 100 := by
  unfold roundDP
  rw [round_eq]
  have hfl : ⌊x * 100 + 1 / 2⌋ = k := by
    rw [Int.floor_eq_iff]
    exact ⟨h1, by linarith⟩
  rw [hfl]

/-! ### Degree-based trigonometry -/

theorem radOfDeg_zero : radOfDeg 0 = 0 := by simp [radOfDeg]

theorem radOfDeg_45 : radOfDeg 45 = π / 4 := by unfold radOfDeg; ring

theorem radOfDeg_60 : radOfDeg 60 = π / 3 := by unfold radOfDeg; ring

theorem radOfDeg_90 : radOfDeg 90 = π / 2 := by unfold radOfDeg; ring

theorem radOfDeg_180 : radOfDeg 180 = π := by unfold radOfDeg; ring

theorem radOfDeg_nonneg {x : ℝ} (h : 0 ≤ x) : 0 ≤ radOfDeg x :=
  div_nonneg (mul_nonneg h Real.pi_pos.le) (by norm_num)

theorem radOfDeg_pos {x : ℝ} (h : 0 < x) : 0 < radOfDeg x :=
  div_pos (mul_pos h Real.pi_pos) (by norm_num)

theorem radOfDeg_lt {x y : ℝ} (h : x < y) : radOfDeg x < radOfDeg y := by
  unfold radOfDeg
  have := Real.pi_pos
  nlinarith

theorem radOfDeg_le {x y : ℝ} (h : x ≤ y) : radOfDeg x ≤ radOfDeg y := by
  unfold radOfDeg
  have := Real.pi_pos
  nlinarith

theorem radOfDeg_lt_pi_div_two {x : ℝ} (h : x < 90) : radOfDeg x < π / 2 := by
  calc radOfDeg x < radOfDeg 90 := radOfDeg_lt h
  _ = π / 2 := radOfDeg_90

theorem radOfDeg_le_pi_div_four {x : ℝ} (h : x ≤ 45) : radOfDeg x ≤ π / 4 := by
  calc radOfDeg x ≤ radOfDeg 45 := radOfDeg_le h
  _ = π / 4 := radOfDeg_45

theorem tand_zero : tand 0 = 0 := by rw [tand, radOfDeg_zero, Real.tan_zero]

theorem tand_45 : tand 45 = 1 := by rw [tand, radOfDeg_45, Real.tan_pi_div_four]

theorem sind_zero : sind 0 = 0 := by rw [sind, radOfDeg_zero, Real.sin_zero]

theorem sind_90 : sind 90 = 1 := by rw [sind, radOfDeg_90, Real.sin_pi_div_two]

theorem sind_60 : sind 60 = Real.sqrt 3 / 2 := by
  rw [sind, radOfDeg_60, Real.sin_pi_div_three]

theorem cosd_90 : cosd 90 = 0 := by rw [cosd, radOfDeg_90, Real.cos_pi_div_two]

theorem cosd_60 : cosd 60 = 1 / 2 := by rw [cosd, radOfDeg_60, Real.cos_pi_div_three]

theorem tand_lt_tand {x y : ℝ} (hx : 0 ≤ x) (hxy : x < y) (hy : y < 90) :
    tand x < tand y := by
  unfold tand
  refine Real.tan_lt_tan_of_lt_of_lt_pi_div_two ?_ (radOfDeg_lt_pi_div_two hy)
    (radOfDeg_lt hxy)
  have h0 : (0 : ℝ) ≤ radOfDeg x := radOfDeg_nonneg hx
  have := Real.pi_pos
  linarith

theorem tand_pos {x : ℝ} (h0 : 0 < x) (h : x < 90) : 0 < tand x :=
  Real.tan_pos_of_pos_of_lt_pi_div_two (radOfDeg_pos h0) (radOfDeg_lt_pi_div_two h)

theorem tand_nonneg {x : ℝ} (h0 : 0 ≤ x) (h : x < 90) : 0 ≤ tand x := by
  rcases eq_or_lt_of_le h0 with h0 | h0
  · rw [← h0, tand_zero]
  · exact (tand_pos h0 h).le

theorem tand_le_tand {x y : ℝ} (hx : 0 ≤ x) (hxy : x ≤ y) (hy : y < 90) :
    tand x ≤ tand y := by
  rcases eq_or_lt_of_le hxy with h | h
  · rw [h]
  · exact (tand_lt_tand hx h hy).le

theorem sind_pos {x : ℝ} (h0 : 0 < x) (h : x < 180) : 0 < sind x := by
  refine Real.sin_pos_of_pos_of_lt_pi (radOfDeg_pos h0) ?_
  calc radOfDeg x < radOfDeg 180 := radOfDeg_lt h
  _ = π := radOfDeg_180

/-! ### Claim C9 -/

/-- C9: for a strip footing the Hansen shape factors are the constants
s_c = 10, s_q = 1.0 and s_gamma = 1.0, for every width and length (in
particular for every positive width and length). -/
theorem C9_hansen_strip_shape_factors (f_w f_l : ℝ) :
    HansenShapeFactor.s_c f_w f_l .strip = 10 ∧
    HansenShapeFactor.s_q f_w f_l .strip = 1.0 ∧
    HansenShapeFactor.s_gamma f_w f_l .strip = 1.0 := by
  refine ⟨?_, ?_, ?_⟩
  · show roundDP 10 = 10
    exact roundDP_of_mul_eq 1000 (by norm_num)
  · show roundDP 1.0 = 1.0
    exact roundDP_of_mul_eq 100 (by norm_num)
  · show roundDP 1.0 = 1.0
    exact roundDP_of_mul_eq 100 (by norm_num)

/-! ### Claim C6 -/

/-- C6: every allowable-bearing-capacity constructor (Bowles, Meyerhof and
Terzaghi, pad and mat variants) accepts a tolerable settlement of exactly
25.4 mm and rejects 25.41 mm with the settlement error at construction time,
before any capacity is computed. -/
theorem C6_settlement_gate (n wd : ℚ) (fs : FoundationSizeQ) :
    (mkBowlesABC4PadFoundation n 25.4 fs = .ok ⟨n, 25.4, none, fs⟩ ∧
      mkBowlesABC4MatFoundation n 25.4 fs = .ok ⟨n, 25.4, none, fs⟩ ∧
      mkMeyerhofABC4PadFoundation n 25.4 fs = .ok ⟨n, 25.4, none, fs⟩ ∧
      mkMeyerhofABC4MatFoundation n 25.4 fs = .ok ⟨n, 25.4, none, fs⟩ ∧
      mkTerzaghiABC4PadFoundation n 25.4 wd fs = .ok ⟨n, 25.4, some wd, fs⟩ ∧
      mkTerzaghiABC4MatFoundation n 25.4 wd fs = .ok ⟨n, 25.4, some wd, fs⟩) ∧
    (mkBowlesABC4PadFoundation n 25.41 fs = .error .settlementExceeded ∧
      mkBowlesABC4MatFoundation n 25.41 fs = .error .settlementExceeded ∧
      mkMeyerhofABC4PadFoundation n 25.41 fs = .error .settlementExceeded ∧
      mkMeyerhofABC4MatFoundation n 25.41 fs = .error .settlementExceeded ∧
      mkTerzaghiABC4PadFoundation n 25.41 wd fs = .error .settlementExceeded ∧
      mkTerzaghiABC4MatFoundation n 25.41 wd fs = .error .settlementExceeded) := by
  have hok : chk_settlement 25.4 MAX_TOL_SETTLEMENT = .ok () := by
    unfold chk_settlement MAX_TOL_SETTLEMENT
    norm_num
  have herr : chk_settlement 25.41 MAX_TOL_SETTLEMENT = .error .settlementExceeded := by
    unfold chk_settlement MAX_TOL_SETTLEMENT
    norm_num
  unfold mkBowlesABC4PadFoundation mkBowlesABC4MatFoundation
    mkMeyerhofABC4PadFoundation mkMeyerhofABC4MatFoundation
    mkTerzaghiABC4PadFoundation mkTerzaghiABC4MatFoundation
  simp [hok, herr]

/-! ### Claim C7 -/

/-- C7 counterexample: a soil mapping whose moist unit weight is -3, which is
not strictly positive, is nevertheless accepted by the constructor: the code
never validates the moist unit weight. -/
theorem C7_counterexample :
    mkUltimateBearingCapacity ⟨some 5, some 5, some (-3)⟩ 0 = .ok ⟨5, 5, -3, 0⟩ := by
  rfl

/-- C7 amended: construction fails with the missing-property error when any of
the three keys is absent (checked in order), fails with the invalid-property
error when the friction angle or the cohesion is negative, and otherwise
accepts the record for every moist unit weight whatsoever (the moist unit
weight is not validated), provided the load angle is in range. -/
theorem C7_amended (m : SoilMapping) (la : ℚ) :
    (m.friction_angle = none →
      mkUltimateBearingCapacity m la = .error (.missingProperty "friction_angle")) ∧
    (∀ fa, m.friction_angle = some fa → m.cohesion = none →
      mkUltimateBearingCapacity m la = .error (.missingProperty "cohesion")) ∧
    (∀ fa cc, m.friction_angle = some fa → m.cohesion = some cc →
      m.moist_unit_wgt = none →
      mkUltimateBearingCapacity m la = .error (.missingProperty "moist_unit_wgt")) ∧
    (∀ fa cc mu, m.friction_angle = some fa → m.cohesion = some cc →
      m.moist_unit_wgt = some mu → fa < 0 →
      mkUltimateBearingCapacity m la = .error (.invalidProperty "friction_angle")) ∧
    (∀ fa cc mu, m.friction_angle = some fa → m.cohesion = some cc →
      m.moist_unit_wgt = some mu → 0 ≤ fa → cc < 0 →
      mkUltimateBearingCapacity m la = .error (.invalidProperty "cohesion")) ∧
    (∀ fa cc mu, m.friction_angle = some fa → m.cohesion = some cc →
      m.moist_unit_wgt = some mu → 0 ≤ fa → 0 ≤ cc → 0 ≤ la → la ≤ 90 →
      mkUltimateBearingCapacity m la = .ok ⟨fa, cc, mu, la⟩) := by
  obtain ⟨f0, c0, w0⟩ := m
  refine ⟨?_, ?_, ?_, ?_, ?_, ?_⟩
  · rintro rfl
    rfl
  · rintro fa rfl rfl
    rfl
  · rintro fa cc rfl rfl rfl
    rfl
  · rintro fa cc mu rfl rfl rfl hfa
    show (if fa < 0 then
        (Except.error (UBCInitError.invalidProperty "friction_angle") :
          Except UBCInitError UBCSoil)
      else if cc < 0 then Except.error (UBCInitError.invalidProperty "cohesion")
      else if 0 ≤ la ∧ la ≤ 90 then Except.ok ⟨fa, cc, mu, la⟩
      else Except.error (UBCInitError.invalidProperty "load_angle")) =
      Except.error (UBCInitError.invalidProperty "friction_angle")
    rw [if_pos hfa]
  · rintro fa cc mu rfl rfl rfl hfa hcc
    show (if fa < 0 then
        (Except.error (UBCInitError.invalidProperty "friction_angle") :
          Except UBCInitError UBCSoil)
      else if cc < 0 then Except.error (UBCInitError.invalidProperty "cohesion")
      else if 0 ≤ la ∧ la ≤ 90 then Except.ok ⟨fa, cc, mu, la⟩
      else Except.error (UBCInitError.invalidProperty "load_angle")) =
      Except.error (UBCInitError.invalidProperty "cohesion")
    rw [if_neg (not_lt.mpr hfa), if_pos hcc]
  · rintro fa cc mu rfl rfl rfl hfa hcc h0 h90
    show (if fa < 0 then
        (Except.error (UBCInitError.invalidProperty "friction_angle") :
          Except UBCInitError UBCSoil)
      else if cc < 0 then Except.error (UBCInitError.invalidProperty "cohesion")
      else if 0 ≤ la ∧ la ≤ 90 then Except.ok ⟨fa, cc, mu, la⟩
      else Except.error (UBCInitError.invalidProperty "load_angle")) =
      Except.ok ⟨fa, cc, mu, la⟩
    rw [if_neg (not_lt.mpr hfa), if_neg (not_lt.mpr hcc), if_pos ⟨h0, h90⟩]

/-- C7 witness: the accepting branch of the amended contract at a concrete
valid mapping. -/
theorem C7_witness :
    mkUltimateBearingCapacity ⟨some 1, some 2, some 3⟩ 0 = .ok ⟨1, 2, 3, 0⟩ :=
  (C7_amended ⟨some 1, some 2, some 3⟩ 0).2.2.2.2.2 1 2 3 rfl rfl rfl
    (by norm_num) (by norm_num) (by norm_num) (by norm_num)

/-! ### Claim C2 -/

/-- C2: for positive depth and effective width, both water corrections are
exactly 1.0 when the ground water level is absent; otherwise the surcharge
correction is min(1 - 0.5 a / depth, 1) with a = max(depth - w, 0) and the
embedment correction is min(0.5 + 0.5 b / width, 1) with b = max(w - depth, 0);
both corrections are at most 1. -/
theorem C2_water_corrections (depth width : ℝ) (gwl : Option ℝ)
    (_hd : 0 < depth) (_hw : 0 < width) :
    (gwl = none → surchargeWaterCorr depth gwl = 1.0 ∧
      embedmentWaterCorr depth width gwl = 1.0) ∧
    (∀ w, gwl = some w →
      surchargeWaterCorr depth gwl = min (1 - 0.5 * max (depth - w) 0 / depth) 1 ∧
      embedmentWaterCorr depth width gwl = min (0.5 + 0.5 * max (w - depth) 0 / width) 1) ∧
    surchargeWaterCorr depth gwl ≤ 1 ∧ embedmentWaterCorr depth width gwl ≤ 1 := by
  refine ⟨?_, ?_, ?_, ?_⟩
  · rintro rfl
    exact ⟨rfl, rfl⟩
  · rintro w rfl
    exact ⟨rfl, rfl⟩
  · cases gwl with
    | none =>
      show (1.0 : ℝ) ≤ 1
      norm_num
    | some w => exact min_le_right _ _
  · cases gwl with
    | none =>
      show (1.0 : ℝ) ≤ 1
      norm_num
    | some w => exact min_le_right _ _

/-- C2 witness: the clamping conclusions at depth 2, width 1 and water level
1. -/
theorem C2_witness :
    surchargeWaterCorr 2 (some 1) ≤ 1 ∧ embedmentWaterCorr 2 1 (some 1) ≤ 1 :=
  ⟨(C2_water_corrections 2 1 (some 1) (by norm_num) (by norm_num)).2.2.1,
    (C2_water_corrections 2 1 (some 1) (by norm_num) (by norm_num)).2.2.2⟩

/-! ### Claim C4 -/

/-- C4: the depth-to-width ratio feeding the depth factors is arctan(d/w) when
d/w exceeds 1 and the raw ratio otherwise (in particular the raw ratio at the
boundary d/w = 1), and Dq equals Dc above 25 degrees of friction and the
phi-dependent expression 1 + 2 tan(phi) (1 - sin(phi))^2 k otherwise. -/
theorem C4_depth_factor_ratio (d w : ℝ) (_hd : 0 < d) (hw : 0 < w) :
    (d / w > 1 → d2w d w = Real.arctan (d / w)) ∧
    (d / w ≤ 1 → d2w d w = d / w) ∧
    d2w w w = 1 ∧
    (∀ sfa, sfa > 25.0 → HansenDepthFactor.d_q sfa d w = HansenDepthFactor.d_c d w) ∧
    (∀ sfa, sfa ≤ 25.0 → HansenDepthFactor.d_q sfa d w =
      roundDP (1 + 2 * tand sfa * (1 - sind sfa) ^ 2 * d2w d w)) := by
  refine ⟨?_, ?_, ?_, ?_, ?_⟩
  · intro h
    unfold d2w
    rw [if_pos h]
  · intro h
    unfold d2w
    rw [if_neg (not_lt.mpr h)]
  · unfold d2w
    rw [div_self hw.ne']
    rw [if_neg (lt_irrefl (1 : ℝ))]
  · intro sfa h
    unfold HansenDepthFactor.d_q
    rw [if_pos h]
  · intro sfa h
    unfold HansenDepthFactor.d_q
    rw [if_neg (not_lt.mpr h)]

/-- C4 witness: both ratio branches and both Dq branches at concrete inputs
d = 2, w = 1 (ratio 2) and d = w = 1 (boundary ratio 1). -/
theorem C4_witness :
    d2w 2 1 = Real.arctan (2 / 1) ∧ d2w 1 1 = 1 / 1 ∧
    HansenDepthFactor.d_q 30 2 1 = HansenDepthFactor.d_c 2 1 ∧
    HansenDepthFactor.d_q 20 2 1 =
      roundDP (1 + 2 * tand 20 * (1 - sind 20) ^ 2 * d2w 2 1) :=
  ⟨(C4_depth_factor_ratio 2 1 (by norm_num) (by norm_num)).1 (by norm_num),
    (C4_depth_factor_ratio 1 1 (by norm_num) (by norm_num)).2.1 (by norm_num),
    (C4_depth_factor_ratio 2 1 (by norm_num) (by norm_num)).2.2.2.1 30 (by norm_num),
    (C4_depth_factor_ratio 2 1 (by norm_num) (by norm_num)).2.2.2.2 20 (by norm_num)⟩

/-! ### Evaluation lemmas for the factor functions at simple angles -/

theorem roundDP_zero : roundDP 0 = 0 := roundDP_of_mul_eq 0 (by norm_num)

theorem roundDP_one : roundDP 1 = 1 := roundDP_of_mul_eq 100 (by norm_num)

theorem TerzaghiBCF_nqRaw_zero : TerzaghiBCF.nqRaw 0 = 1 := by
  unfold TerzaghiBCF.nqRaw
  rw [Real.tan_zero, mul_zero, Real.exp_zero]
  have h0 : π / 4 + 0 / 2 = π / 4 := by ring
  rw [h0, Real.cos_pi_div_four, div_pow, Real.sq_sqrt (by norm_num : (0 : ℝ) ≤ 2)]
  norm_num

theorem Hansen_n_q_raw_zero : HansenBearingCapacityFactor.n_q_raw 0 = 1 := by
  unfold HansenBearingCapacityFactor.n_q_raw
  have h0 : (45 : ℝ) + 0 / 2 = 45 := by ring
  rw [h0, tand_45, tand_zero, mul_zero, Real.exp_zero]
  norm_num

theorem Hansen_n_q_zero : HansenBearingCapacityFactor.n_q 0 = 1 := by
  unfold HansenBearingCapacityFactor.n_q
  rw [Hansen_n_q_raw_zero]
  exact roundDP_one

theorem Hansen_n_c_zero : HansenBearingCapacityFactor.n_c 0 = 5.14 := by
  unfold HansenBearingCapacityFactor.n_c
  rw [if_pos (by unfold specIsclose; norm_num)]
  exact roundDP_of_mul_eq 514 (by norm_num)

theorem Hansen_n_gamma_zero : HansenBearingCapacityFactor.n_gamma 0 = 0 := by
  unfold HansenBearingCapacityFactor.n_gamma HansenBearingCapacityFactor.n_gamma_raw
  rw [Hansen_n_q_zero, tand_zero]
  have h : (1.8 : ℝ) * (1 - 1) * 0 = 0 := by ring
  rw [h]
  exact roundDP_zero

theorem Hansen_s_c_square (w l : ℝ) : HansenShapeFactor.s_c w l .square = 1.3 := by
  show roundDP 1.3 = 1.3
  exact roundDP_of_mul_eq 130 (by norm_num)

theorem Hansen_s_q_square (w l : ℝ) : HansenShapeFactor.s_q w l .square = 1.2 := by
  show roundDP 1.2 = 1.2
  exact roundDP_of_mul_eq 120 (by norm_num)

theorem Hansen_s_gamma_square (w l : ℝ) : HansenShapeFactor.s_gamma w l .square = 0.8 := by
  show roundDP 0.8 = 0.8
  exact roundDP_of_mul_eq 80 (by norm_num)

theorem d2w_two_two : d2w 2 2 = 1 := by
  unfold d2w
  norm_num

theorem Hansen_d_c_two_two : HansenDepthFactor.d_c 2 2 = 1.4 := by
  unfold HansenDepthFactor.d_c
  rw [d2w_two_two]
  have h : (1 : ℝ) + 0.4 * 1 = 1.4 := by norm_num
  rw [h]
  exact roundDP_of_mul_eq 140 (by norm_num)

theorem Hansen_d_q_zero_two_two : HansenDepthFactor.d_q 0 2 2 = 1 := by
  unfold HansenDepthFactor.d_q
  rw [if_neg (by norm_num), d2w_two_two, tand_zero]
  have h : (1 : ℝ) + 2 * 0 * (1 - sind 0) ^ 2 * 1 = 1 := by ring
  rw [h]
  exact roundDP_one

theorem Hansen_d_gamma_eq : HansenDepthFactor.d_gamma = 1 := by
  unfold HansenDepthFactor.d_gamma
  rw [show (1.0 : ℝ) = 1 by norm_num]
  exact roundDP_one

theorem Hansen_i_c_eval : HansenInclinationFactor.i_c 10 90 2 2 = 1 := by
  unfold HansenInclinationFactor.i_c
  rw [cosd_90]
  have h : (1 : ℝ) - 0 / (2 * 10 * 2 * 2) = 1 := by norm_num
  rw [h]
  exact roundDP_one

theorem Hansen_i_q_90 : HansenInclinationFactor.i_q 90 = 1 := by
  unfold HansenInclinationFactor.i_q
  rw [cosd_90, sind_90]
  norm_num

theorem Hansen_i_gamma_90 : HansenInclinationFactor.i_gamma 90 = 1 := by
  unfold HansenInclinationFactor.i_gamma
  rw [Hansen_i_q_90]
  norm_num

/-! ### Claim C1 -/

/-- C1 counterexample: for the Hansen method on a square footing (friction
angle 0, cohesion 10, unit weight 18, depth 2, width 2, no water, load angle
90, no eccentricity) the returned capacity is 136.75, the superposition with
the base coefficients (1.0, 0.5); the (1.2, 0.4) superposition the claim
prescribes for square footings evaluates to 155.46 on the same factors, so
the per-shape constants do not apply to every method. -/
theorem C1_counterexample :
    hansenBC ⟨0, 10, 18, 2, 2, 2, .square, none, 90, 0⟩ = 136.75 ∧
    roundDP (1.2 * (10 * HansenBearingCapacityFactor.n_c 0 *
          HansenShapeFactor.s_c 2 2 .square * HansenDepthFactor.d_c 2 2 *
          HansenInclinationFactor.i_c 10 90 2 2) +
        (18 * 2) * HansenBearingCapacityFactor.n_q 0 *
          HansenShapeFactor.s_q 2 2 .square * HansenDepthFactor.d_q 0 2 2 *
          HansenInclinationFactor.i_q 90 * surchargeWaterCorr 2 none +
        0.4 * (18 * (2 - 2 * 0) * HansenBearingCapacityFactor.n_gamma 0 *
          HansenShapeFactor.s_gamma 2 2 .square * HansenDepthFactor.d_gamma *
          HansenInclinationFactor.i_gamma 90 *
          embedmentWaterCorr 2 (2 - 2 * 0) none)) = 155.46 ∧
    (136.75 : ℝ) ≠ 155.46 := by
  have hsur : surchargeWaterCorr 2 none = 1 := by
    show (1.0 : ℝ) = 1
    norm_num
  have hemb : embedmentWaterCorr 2 (2 - 2 * 0) none = 1 := by
    show (1.0 : ℝ) = 1
    norm_num
  refine ⟨?_, ?_, by norm_num⟩
  · show roundDP (10 * HansenBearingCapacityFactor.n_c 0 *
        HansenShapeFactor.s_c 2 2 .square * HansenDepthFactor.d_c 2 2 *
        HansenInclinationFactor.i_c 10 90 2 2 +
      (18 * 2) * HansenBearingCapacityFactor.n_q 0 *
        HansenShapeFactor.s_q 2 2 .square * HansenDepthFactor.d_q 0 2 2 *
        HansenInclinationFactor.i_q 90 * surchargeWaterCorr 2 none +
      0.5 * (18 * (2 - 2 * 0) * HansenBearingCapacityFactor.n_gamma 0 *
        HansenShapeFactor.s_gamma 2 2 .square * HansenDepthFactor.d_gamma *
        HansenInclinationFactor.i_gamma 90 *
        embedmentWaterCorr 2 (2 - 2 * 0) none)) = 136.75
    rw [Hansen_n_c_zero, Hansen_n_q_zero, Hansen_n_gamma_zero, Hansen_s_c_square,
      Hansen_s_q_square, Hansen_s_gamma_square, Hansen_d_c_two_two,
      Hansen_d_q_zero_two_two, Hansen_d_gamma_eq, Hansen_i_c_eval, Hansen_i_q_90,
      Hansen_i_gamma_90, hsur, hemb]
    have harg : (10 : ℝ) * 5.14 * 1.3 * 1.4 * 1 + 18 * 2 * 1 * 1.2 * 1 * 1 * 1 +
        0.5 * (18 * (2 - 2 * 0) * 0 * 0.8 * 1 * 1 * 1) = 136.748 := by norm_num
    rw [harg, roundDP_eq_div 136.748 13675 (by norm_num) (by norm_num)]
    norm_num
  · rw [Hansen_n_c_zero, Hansen_n_q_zero, Hansen_n_gamma_zero, Hansen_s_c_square,
      Hansen_s_q_square, Hansen_s_gamma_square, Hansen_d_c_two_two,
      Hansen_d_q_zero_two_two, Hansen_d_gamma_eq, Hansen_i_c_eval, Hansen_i_q_90,
      Hansen_i_gamma_90, hsur, hemb]
    have harg : (1.2 : ℝ) * (10 * 5.14 * 1.3 * 1.4 * 1) + 18 * 2 * 1 * 1.2 * 1 * 1 * 1 +
        0.4 * (18 * (2 - 2 * 0) * 0 * 0.8 * 1 * 1 * 1) = 155.4576 := by norm_num
    rw [harg, roundDP_eq_div 155.4576 15546 (by norm_num) (by norm_num)]
    norm_num

/-- C1 amended (corrected): the three-term superposition structure holds for
all methods, but the per-shape leading constants (1.0, 0.5) / (1.2, 0.4) /
(1.2, 0.3) belong to the Terzaghi method only (TBC.qult_4_strip_footing,
qult_4_square_footing, qult_4_circular_footing); the generic aggregator and
the Hansen method use the constants (1.0, 0.5) for every footing shape,
handling shape through the shape factors instead. -/
theorem C1_amended :
    (∀ s : UBCState, bearing_capacity s =
      1.0 * s.cohesion * s.n_c * s.s_c * s.d_c * s.i_c +
      (s.moist_unit_wgt * s.depth) * s.n_q * s.s_q * s.d_q * s.i_q *
        surchargeWaterCorr s.depth s.ground_water_level +
      0.5 * s.moist_unit_wgt * s.effective_width * s.n_gamma * s.s_gamma *
        s.d_gamma * s.i_gamma *
        embedmentWaterCorr s.depth s.effective_width s.ground_water_level) ∧
    (∀ c g fd fw t phi, TBC.qult_4_strip_footing c g fd fw t phi =
      roundDP (1.0 * c * TerzaghiBCF.nc phi + g * fd * TerzaghiBCF.nq phi +
        0.5 * g * fw * TerzaghiBCF.ngamma t phi)) ∧
    (∀ c g fd fw t phi, TBC.qult_4_square_footing c g fd fw t phi =
      roundDP (1.2 * c * TerzaghiBCF.nc phi + g * fd * TerzaghiBCF.nq phi +
        0.4 * g * fw * TerzaghiBCF.ngamma t phi)) ∧
    (∀ c g fd fw t phi, TBC.qult_4_circular_footing c g fd fw t phi =
      roundDP (1.2 * c * TerzaghiBCF.nc phi + g * fd * TerzaghiBCF.nq phi +
        0.3 * g * fw * TerzaghiBCF.ngamma t phi)) ∧
    (∀ inp : HansenUBCInput, hansenBC inp =
      roundDP (1.0 * (inp.cohesion * HansenBearingCapacityFactor.n_c inp.friction_angle *
          HansenShapeFactor.s_c inp.width inp.length inp.footing_shape *
          HansenDepthFactor.d_c inp.depth inp.width *
          HansenInclinationFactor.i_c inp.cohesion inp.load_angle inp.width inp.length) +
        (inp.moist_unit_wgt * inp.depth) * HansenBearingCapacityFactor.n_q inp.friction_angle *
          HansenShapeFactor.s_q inp.width inp.length inp.footing_shape *
          HansenDepthFactor.d_q inp.friction_angle inp.depth inp.width *
          HansenInclinationFactor.i_q inp.load_angle *
          surchargeWaterCorr inp.depth inp.water_level +
        0.5 * ((inp.moist_unit_wgt * (inp.width - 2 * inp.e)) *
          HansenBearingCapacityFactor.n_gamma inp.friction_angle *
          HansenShapeFactor.s_gamma inp.width inp.length inp.footing_shape *
          HansenDepthFactor.d_gamma *
          HansenInclinationFactor.i_gamma inp.load_angle *
          embedmentWaterCorr inp.depth (inp.width - 2 * inp.e) inp.water_level))) := by
  refine ⟨fun s => ?_, fun c g fd fw t phi => ?_, fun c g fd fw t phi => ?_,
    fun c g fd fw t phi => ?_, fun inp => ?_⟩
  · unfold bearing_capacity cohesionTerm surchargeTerm embedmentTerm
    ring
  · unfold TBC.qult_4_strip_footing
    congr 1
    ring
  · unfold TBC.qult_4_square_footing
    rfl
  · unfold TBC.qult_4_circular_footing
    rfl
  · unfold hansenBC
    congr 1
    ring

/-! ### Claim C3 -/

/-- C3: Nq at zero friction angle is exactly 1 for both methods (raw and as
returned); Nc returns the documented method constant exactly on the whole
floating-point tolerance window around zero, not only at exactly 0 (Terzaghi
5.70, Hansen 5.14); away from the window, Nc is the rounded
cot(phi) (Nq(phi) - 1) closed form and the tangent divisor is nonzero
throughout (0, 45] degrees, so the division never divides by zero. -/
theorem C3_nc_nq_special_cases :
    (TerzaghiBCF.nqRaw 0 = 1 ∧ TerzaghiBCF.nq 0 = 1 ∧
      HansenBearingCapacityFactor.n_q_raw 0 = 1 ∧
      HansenBearingCapacityFactor.n_q 0 = 1) ∧
    (∀ phi, npIsclose (radOfDeg phi) 0 → TerzaghiBCF.nc phi = 5.70) ∧
    (∀ phi, specIsclose phi 0 → HansenBearingCapacityFactor.n_c phi = 5.14) ∧
    (∀ phi, 0 < phi → phi ≤ 45 →
      Real.tan (radOfDeg phi) ≠ 0 ∧ sind phi ≠ 0 ∧
      (¬ npIsclose (radOfDeg phi) 0 → TerzaghiBCF.nc phi =
        roundDP ((1 / Real.tan (radOfDeg phi)) * (TerzaghiBCF.nqRaw (radOfDeg phi) - 1))) ∧
      (¬ specIsclose phi 0 → HansenBearingCapacityFactor.n_c phi =
        roundDP (cotd phi * (HansenBearingCapacityFactor.n_q phi - 1)))) := by
  refine ⟨⟨TerzaghiBCF_nqRaw_zero, ?_, Hansen_n_q_raw_zero, Hansen_n_q_zero⟩, ?_, ?_, ?_⟩
  · unfold TerzaghiBCF.nq
    rw [radOfDeg_zero, TerzaghiBCF_nqRaw_zero]
    exact roundDP_one
  · intro phi h
    unfold TerzaghiBCF.nc
    rw [if_pos h]
  · intro phi h
    unfold HansenBearingCapacityFactor.n_c
    rw [if_pos h]
    exact roundDP_of_mul_eq 514 (by norm_num)
  · intro phi h0 h45
    refine ⟨?_, ?_, ?_, ?_⟩
    · exact (Real.tan_pos_of_pos_of_lt_pi_div_two (radOfDeg_pos h0)
        (radOfDeg_lt_pi_div_two (by linarith))).ne'
    · exact (sind_pos h0 (by linarith)).ne'
    · intro hn
      unfold TerzaghiBCF.nc
      rw [if_neg hn]
    · intro hn
      unfold HansenBearingCapacityFactor.n_c
      rw [if_neg hn]

/-- C3 witness: the tolerance branch evaluated at friction angle 0 and the
closed-form branch hypotheses discharged at friction angle 45. -/
theorem C3_witness :
    TerzaghiBCF.nc 0 = 5.70 ∧ HansenBearingCapacityFactor.n_c 0 = 5.14 ∧
    Real.tan (radOfDeg 45) ≠ 0 := by
  refine ⟨C3_nc_nq_special_cases.2.1 0 ?_, C3_nc_nq_special_cases.2.2.1 0 ?_,
    (C3_nc_nq_special_cases.2.2.2 45 (by norm_num) (by norm_num)).1⟩
  · unfold npIsclose
    rw [radOfDeg_zero]
    norm_num
  · unfold specIsclose
    norm_num

/-! ### Claim C8 -/

/-- C8 counterexample: the Hansen inclination factor i_q carries no rounding:
at the valid load angle of 60 degrees it returns 1 - sqrt(3)/2, an irrational
number, which therefore differs from its value rounded to the fixed decimal
precision. -/
theorem C8_counterexample :
    HansenInclinationFactor.i_q 60 ≠ roundDP (HansenInclinationFactor.i_q 60) := by
  have h3 : (0 : ℝ) < Real.sqrt 3 := Real.sqrt_pos.mpr (by norm_num)
  have h9 : (Real.sqrt 3) ^ 2 = 3 := Real.sq_sqrt (by norm_num)
  have hval : HansenInclinationFactor.i_q 60 = 1 - Real.sqrt 3 / 2 := by
    unfold HansenInclinationFactor.i_q
    rw [cosd_60, sind_60]
    field_simp
    nlinarith [h9]
  intro heq
  have hirr : Irrational (Real.sqrt 3) := (Nat.prime_three).irrational_sqrt
  rw [hval] at heq
  unfold roundDP at heq
  set k : ℤ := round ((1 - Real.sqrt 3 / 2) * 100) with hk
  have hq : ((2 - (k : ℚ) / 50 : ℚ) : ℝ) = Real.sqrt 3 := by
    push_cast
    linarith [heq]
  exact hirr ⟨_, hq⟩

/-- C8 amended (corrected): every factor function of the engine except the
Hansen inclination factors i_q and i_gamma returns its value at the fixed
decimal precision (rounding the returned value is a no-op); i_q and i_gamma
return raw, unrounded values. -/
theorem C8_amended :
    (∀ phi, roundDP (TerzaghiBCF.nq phi) = TerzaghiBCF.nq phi) ∧
    (∀ phi, roundDP (TerzaghiBCF.nc phi) = TerzaghiBCF.nc phi) ∧
    (∀ t phi, roundDP (TerzaghiBCF.ngamma t phi) = TerzaghiBCF.ngamma t phi) ∧
    (∀ phi, roundDP (HansenBearingCapacityFactor.n_c phi) =
      HansenBearingCapacityFactor.n_c phi) ∧
    (∀ phi, roundDP (HansenBearingCapacityFactor.n_q phi) =
      HansenBearingCapacityFactor.n_q phi) ∧
    (∀ phi, roundDP (HansenBearingCapacityFactor.n_gamma phi) =
      HansenBearingCapacityFactor.n_gamma phi) ∧
    (∀ w l sh, roundDP (HansenShapeFactor.s_c w l sh) = HansenShapeFactor.s_c w l sh) ∧
    (∀ w l sh, roundDP (HansenShapeFactor.s_q w l sh) = HansenShapeFactor.s_q w l sh) ∧
    (∀ w l sh, roundDP (HansenShapeFactor.s_gamma w l sh) =
      HansenShapeFactor.s_gamma w l sh) ∧
    (∀ d w, roundDP (HansenDepthFactor.d_c d w) = HansenDepthFactor.d_c d w) ∧
    (∀ s d w, roundDP (HansenDepthFactor.d_q s d w) = HansenDepthFactor.d_q s d w) ∧
    roundDP HansenDepthFactor.d_gamma = HansenDepthFactor.d_gamma ∧
    (∀ c a w l, roundDP (HansenInclinationFactor.i_c c a w l) =
      HansenInclinationFactor.i_c c a w l) := by
  refine ⟨fun phi => roundDP_idem _, ?_, fun t phi => roundDP_idem _,
    fun phi => roundDP_idem _, fun phi => roundDP_idem _, fun phi => roundDP_idem _,
    fun w l sh => roundDP_idem _, fun w l sh => roundDP_idem _,
    fun w l sh => roundDP_idem _, fun d w => roundDP_idem _, ?_, roundDP_idem _,
    fun c a w l => roundDP_idem _⟩
  · intro phi
    unfold TerzaghiBCF.nc
    split
    · exact roundDP_of_mul_eq 570 (by norm_num)
    · exact roundDP_idem _
  · intro s d w
    unfold HansenDepthFactor.d_q
    split
    · exact roundDP_idem _
    · exact roundDP_idem _

/-! ### Claim C10 -/

/-- C10 counterexample: the load angle 0 passes the 0 <= alpha <= 90
validation of the load_angle setter, yet the divisor sin(load_angle) of the
Hansen i_q formula vanishes there, so a valid load angle does make i_q divide
by zero. -/
theorem C10_counterexample : loadAngleValid 0 ∧ sind 0 = 0 :=
  ⟨⟨le_refl 0, by norm_num⟩, sind_zero⟩

/-- C10 amended (corrected): for every load angle with 0 < alpha <= 90 the
divisor sin(alpha) of i_q is strictly positive, so i_q is a well-defined
finite value and i_gamma is its square; the division by zero occurs only at
the validated boundary angle alpha = 0. -/
theorem C10_amended (α : ℝ) (h0 : 0 < α) (h90 : α ≤ 90) :
    0 < sind α ∧
    HansenInclinationFactor.i_gamma α = (HansenInclinationFactor.i_q α) ^ 2 :=
  ⟨sind_pos h0 (by linarith), rfl⟩

/-- C10 witness: the amended statement at the default Hansen load angle of
90 degrees. -/
theorem C10_witness : 0 < sind 90 :=
  (C10_amended 90 (by norm_num) (by norm_num)).1

/-! ### Claim C5: counterexample -/

/-- C5 counterexample: strict monotonicity of the returned factors fails:
1e-10 and 1e-9 degrees are two distinct friction angles in (0, 45], yet the
Terzaghi Nc returns 5.70 at both, because both fall inside the numpy
tolerance window of the phi-close-to-zero branch. -/
theorem C5_counterexample :
    (0 < (1e-10 : ℝ) ∧ (1e-10 : ℝ) < 1e-9 ∧ (1e-9 : ℝ) ≤ 45) ∧
    TerzaghiBCF.nc 1e-10 = TerzaghiBCF.nc 1e-9 := by
  have key : ∀ x : ℝ, 0 ≤ x → x ≤ 1e-9 → npIsclose (radOfDeg x) 0 := by
    intro x h0 h1
    unfold npIsclose radOfDeg
    have hnn : 0 ≤ x * π / 180 := div_nonneg (mul_nonneg h0 Real.pi_pos.le) (by norm_num)
    rw [sub_zero, abs_zero, abs_of_nonneg hnn]
    have hπ := Real.pi_le_four
    nlinarith [mul_le_mul h1 hπ Real.pi_pos.le (by norm_num : (0 : ℝ) ≤ 1e-9)]
  have h1 := key 1e-10 (by norm_num) (by norm_num)
  have h2 := key 1e-9 (by norm_num) (by norm_num)
  refine ⟨⟨by norm_num, by norm_num, by norm_num⟩, ?_⟩
  unfold TerzaghiBCF.nc
  rw [if_pos h1, if_pos h2]

/-! ### Monotonicity analysis of the raw factors -/

theorem tan_sub_eq {x y : ℝ} (hx : Real.cos x ≠ 0) (hy : Real.cos y ≠ 0) :
    Real.tan y - Real.tan x = Real.sin (y - x) / (Real.cos x * Real.cos y) := by
  rw [Real.tan_eq_sin_div_cos, Real.tan_eq_sin_div_cos, div_sub_div _ _ hy hx,
    Real.sin_sub]
  ring

theorem sub_lt_tan_sub {x y : ℝ} (hx : 0 < x) (hxy : x < y) (hy : y < π / 2) :
    y - x < Real.tan y - Real.tan x := by
  have hpi := Real.pi_pos
  have hx2 : x < π / 2 := hxy.trans hy
  have hcx : 0 < Real.cos x := Real.cos_pos_of_mem_Ioo ⟨by linarith, hx2⟩
  have hcy : 0 < Real.cos y := Real.cos_pos_of_mem_Ioo ⟨by linarith, hy⟩
  have hd0 : 0 < y - x := by linarith
  have hdlt : y - x < π / 2 := by linarith
  have hsd : 0 < Real.sin (y - x) := Real.sin_pos_of_pos_of_lt_pi hd0 (by linarith)
  have hcd : 0 < Real.cos (y - x) := Real.cos_pos_of_mem_Ioo ⟨by linarith, hdlt⟩
  have hcyd : Real.cos y ≤ Real.cos (y - x) :=
    Real.cos_le_cos_of_nonneg_of_le_pi (by linarith) (by linarith) (by linarith)
  have hprod : Real.cos x * Real.cos y ≤ Real.cos (y - x) := by
    calc Real.cos x * Real.cos y ≤ 1 * Real.cos (y - x) :=
      mul_le_mul (Real.cos_le_one x) hcyd hcy.le (by norm_num)
    _ = Real.cos (y - x) := one_mul _
  have htan : Real.tan y - Real.tan x = Real.sin (y - x) / (Real.cos x * Real.cos y) :=
    tan_sub_eq hcx.ne' hcy.ne'
  have hstep : Real.tan (y - x) ≤ Real.sin (y - x) / (Real.cos x * Real.cos y) := by
    rw [Real.tan_eq_sin_div_cos, div_le_div_iff₀ hcd (mul_pos hcx hcy)]
    exact mul_le_mul_of_nonneg_left hprod hsd.le
  have hdt : y - x < Real.tan (y - x) := Real.lt_tan hd0 hdlt
  calc y - x < Real.tan (y - x) := hdt
  _ ≤ Real.sin (y - x) / (Real.cos x * Real.cos y) := hstep
  _ = Real.tan y - Real.tan x := htan.symm

theorem tan_le_one_of_le_pi_div_four {x : ℝ} (h0 : 0 ≤ x) (h : x ≤ π / 4) :
    Real.tan x ≤ 1 := by
  have hpi := Real.pi_pos
  rcases eq_or_lt_of_le h with h | h
  · rw [h, Real.tan_pi_div_four]
  · rcases eq_or_lt_of_le h0 with h0 | h0
    · rw [← h0, Real.tan_zero]
      norm_num
    · refine le_of_lt ?_
      calc Real.tan x < Real.tan (π / 4) :=
        Real.tan_lt_tan_of_lt_of_lt_pi_div_two (by linarith) (by linarith) h
      _ = 1 := Real.tan_pi_div_four

theorem terzaghi_exponent_lt {x y : ℝ} (hx : 0 < x) (hxy : x < y) (hy : y ≤ π / 4) :
    (3 * π / 2 - x) * Real.tan x < (3 * π / 2 - y) * Real.tan y := by
  have hpi := Real.pi_pos
  have hpi3 := Real.pi_gt_three
  have hy2 : y < π / 2 := by linarith
  have htd : y - x < Real.tan y - Real.tan x := sub_lt_tan_sub hx hxy hy2
  have htx1 : Real.tan x ≤ 1 := tan_le_one_of_le_pi_div_four hx.le (by linarith)
  have htx0 : 0 < Real.tan x := Real.tan_pos_of_pos_of_lt_pi_div_two hx (by linarith)
  have hint1 : (3 * π / 2 - y) * (y - x) < (3 * π / 2 - y) * (Real.tan y - Real.tan x) :=
    mul_lt_mul_of_pos_left htd (by linarith)
  have hint2 : Real.tan x * (y - x) ≤ 1 * (y - x) :=
    mul_le_mul_of_nonneg_right htx1 (by linarith)
  have hint3 : 0 < (y - x) * (3 * π / 2 - y - 1) :=
    mul_pos (by linarith) (by linarith)
  nlinarith [hint1, hint2, hint3]

theorem terzaghi_den_pos {u : ℝ} (h0 : 0 ≤ u) (h : u ≤ π / 4) :
    0 < 2 * (Real.cos (π / 4 + u / 2)) ^ 2 := by
  have hpi := Real.pi_pos
  have hc : 0 < Real.cos (π / 4 + u / 2) :=
    Real.cos_pos_of_mem_Ioo ⟨by linarith, by linarith⟩
  exact mul_pos (by norm_num) (pow_pos hc 2)

theorem terzaghi_den_lt {x y : ℝ} (hx : 0 ≤ x) (hxy : x < y) (hy : y ≤ π / 4) :
    2 * (Real.cos (π / 4 + y / 2)) ^ 2 < 2 * (Real.cos (π / 4 + x / 2)) ^ 2 := by
  have hpi := Real.pi_pos
  have hcy : 0 < Real.cos (π / 4 + y / 2) :=
    Real.cos_pos_of_mem_Ioo ⟨by linarith, by linarith⟩
  have hlt : Real.cos (π / 4 + y / 2) < Real.cos (π / 4 + x / 2) := by
    refine Real.strictAntiOn_cos ⟨by linarith, by linarith⟩ ⟨by linarith, by linarith⟩
      (by linarith)
  nlinarith [hlt, hcy]

theorem terzaghi_nqRaw_lt {x y : ℝ} (hx : 0 < x) (hxy : x < y) (hy : y ≤ π / 4) :
    TerzaghiBCF.nqRaw x < TerzaghiBCF.nqRaw y := by
  unfold TerzaghiBCF.nqRaw
  have hnum : Real.exp ((3 * π / 2 - x) * Real.tan x) <
      Real.exp ((3 * π / 2 - y) * Real.tan y) :=
    Real.exp_lt_exp.mpr (terzaghi_exponent_lt hx hxy hy)
  have hnx : 0 < Real.exp ((3 * π / 2 - x) * Real.tan x) := Real.exp_pos _
  have hdx := terzaghi_den_pos hx.le (by linarith)
  have hdy := terzaghi_den_pos (by linarith : (0 : ℝ) ≤ y) hy
  have hdlt := terzaghi_den_lt hx.le hxy hy
  rw [div_lt_div_iff₀ hdx hdy]
  have h1 := mul_lt_mul_of_pos_right hnum hdy
  have h2 := mul_lt_mul_of_pos_left hdlt (hnx.trans hnum)
  linarith

theorem terzaghi_nqRaw_gt_one {u : ℝ} (hu : 0 < u) (h : u ≤ π / 4) :
    1 < TerzaghiBCF.nqRaw u := by
  unfold TerzaghiBCF.nqRaw
  have hpi := Real.pi_pos
  have ht : 0 < Real.tan u := Real.tan_pos_of_pos_of_lt_pi_div_two hu (by linarith)
  have hexp : 1 < Real.exp ((3 * π / 2 - u) * Real.tan u) := by
    calc (1 : ℝ) = Real.exp 0 := Real.exp_zero.symm
    _ < Real.exp ((3 * π / 2 - u) * Real.tan u) :=
      Real.exp_lt_exp.mpr (mul_pos (by linarith) ht)
  have hden_pos := terzaghi_den_pos hu.le h
  have harg : 2 * (π / 4 + u / 2) = π / 2 + u := by ring
  have hcos2 : 2 * (Real.cos (π / 4 + u / 2)) ^ 2 = 1 + Real.cos (π / 2 + u) := by
    rw [Real.cos_sq, harg]
    ring
  have hneg : Real.cos (π / 2 + u) < 0 :=
    Real.cos_neg_of_pi_div_two_lt_of_lt (by linarith) (by linarith)
  have hden_lt_one : 2 * (Real.cos (π / 4 + u / 2)) ^ 2 < 1 := by
    rw [hcos2]
    linarith
  rw [one_lt_div hden_pos]
  linarith

theorem terzaghi_ngammaRaw_lt {t : TerzaghiBCF.NgammaType} {x y : ℝ} (hx : 0 < x)
    (hxy : x < y) (hy : y ≤ 45) :
    TerzaghiBCF.ngammaRaw t x < TerzaghiBCF.ngammaRaw t y := by
  have hpi := Real.pi_pos
  have hrx : 0 < radOfDeg x := radOfDeg_pos hx
  have hry4 : radOfDeg y ≤ π / 4 := radOfDeg_le_pi_div_four hy
  have hrxy : radOfDeg x < radOfDeg y := radOfDeg_lt hxy
  have hnq := terzaghi_nqRaw_lt hrx hrxy hry4
  have hnq1x := terzaghi_nqRaw_gt_one hrx (by linarith)
  cases t with
  | meyerhof =>
    show (TerzaghiBCF.nqRaw (radOfDeg x) - 1) * Real.tan (1.4 * radOfDeg x) <
      (TerzaghiBCF.nqRaw (radOfDeg y) - 1) * Real.tan (1.4 * radOfDeg y)
    have htx : 0 < Real.tan (1.4 * radOfDeg x) :=
      Real.tan_pos_of_pos_of_lt_pi_div_two (by linarith) (by linarith)
    have htlt : Real.tan (1.4 * radOfDeg x) < Real.tan (1.4 * radOfDeg y) :=
      Real.tan_lt_tan_of_lt_of_lt_pi_div_two (by linarith) (by linarith) (by linarith)
    exact mul_lt_mul'' (by linarith) htlt (by linarith) htx.le
  | hansen =>
    show 1.8 * (TerzaghiBCF.nqRaw (radOfDeg x) - 1) * Real.tan (radOfDeg x) <
      1.8 * (TerzaghiBCF.nqRaw (radOfDeg y) - 1) * Real.tan (radOfDeg y)
    have htx : 0 < Real.tan (radOfDeg x) :=
      Real.tan_pos_of_pos_of_lt_pi_div_two hrx (by linarith)
    have htlt : Real.tan (radOfDeg x) < Real.tan (radOfDeg y) :=
      Real.tan_lt_tan_of_lt_of_lt_pi_div_two (by linarith) (by linarith) hrxy
    have hm : (TerzaghiBCF.nqRaw (radOfDeg x) - 1) * Real.tan (radOfDeg x) <
        (TerzaghiBCF.nqRaw (radOfDeg y) - 1) * Real.tan (radOfDeg y) :=
      mul_lt_mul'' (by linarith) htlt (by linarith) htx.le
    nlinarith [hm]

theorem hansen_n_q_raw_lt {x y : ℝ} (hx : 0 < x) (hxy : x < y) (hy : y ≤ 45) :
    HansenBearingCapacityFactor.n_q_raw x < HansenBearingCapacityFactor.n_q_raw y := by
  unfold HansenBearingCapacityFactor.n_q_raw
  have h1x : 0 < tand (45 + x / 2) := tand_pos (by linarith) (by linarith)
  have h1lt : tand (45 + x / 2) < tand (45 + y / 2) :=
    tand_lt_tand (by linarith) (by linarith) (by linarith)
  have hsq : (tand (45 + x / 2)) ^ 2 < (tand (45 + y / 2)) ^ 2 := by
    nlinarith [h1x, h1lt]
  have htx : tand x < tand y := tand_lt_tand hx.le hxy (by linarith)
  have hex : Real.exp (π * tand x) < Real.exp (π * tand y) :=
    Real.exp_lt_exp.mpr (mul_lt_mul_of_pos_left htx Real.pi_pos)
  exact mul_lt_mul'' hsq hex (sq_nonneg _) (Real.exp_pos _).le

theorem hansen_n_q_raw_ge_one {x : ℝ} (h0 : 0 ≤ x) (h45 : x ≤ 45) :
    1 ≤ HansenBearingCapacityFactor.n_q_raw x := by
  unfold HansenBearingCapacityFactor.n_q_raw
  have h1 : 1 ≤ tand (45 + x / 2) := by
    rw [← tand_45]
    exact tand_le_tand (by norm_num) (by linarith) (by linarith)
  have h2 : 1 ≤ Real.exp (π * tand x) := by
    calc (1 : ℝ) = Real.exp 0 := Real.exp_zero.symm
    _ ≤ Real.exp (π * tand x) :=
      Real.exp_le_exp.mpr (mul_nonneg Real.pi_pos.le (tand_nonneg h0 (by linarith)))
  nlinarith [h1, h2]

theorem hansen_n_q_ge_one {x : ℝ} (h0 : 0 ≤ x) (h45 : x ≤ 45) :
    1 ≤ HansenBearingCapacityFactor.n_q x := by
  unfold HansenBearingCapacityFactor.n_q
  calc (1 : ℝ) = roundDP 1 := roundDP_one.symm
  _ ≤ roundDP (HansenBearingCapacityFactor.n_q_raw x) :=
    roundDP_mono (hansen_n_q_raw_ge_one h0 h45)

theorem hansen_n_gamma_raw_le {x y : ℝ} (hx : 0 < x) (hxy : x ≤ y) (hy : y ≤ 45) :
    HansenBearingCapacityFactor.n_gamma_raw x ≤
      HansenBearingCapacityFactor.n_gamma_raw y := by
  unfold HansenBearingCapacityFactor.n_gamma_raw
  have hq1 : 1 ≤ HansenBearingCapacityFactor.n_q x := hansen_n_q_ge_one hx.le (by linarith)
  have hqle : HansenBearingCapacityFactor.n_q x ≤ HansenBearingCapacityFactor.n_q y := by
    rcases eq_or_lt_of_le hxy with h | h
    · rw [h]
    · unfold HansenBearingCapacityFactor.n_q
      exact roundDP_mono (hansen_n_q_raw_lt hx h hy).le
  have htle : tand x ≤ tand y := tand_le_tand hx.le hxy (by linarith)
  have ht0 : 0 ≤ tand x := tand_nonneg hx.le (by linarith)
  have hm : (HansenBearingCapacityFactor.n_q x - 1) * tand x ≤
      (HansenBearingCapacityFactor.n_q y - 1) * tand y :=
    mul_le_mul (by linarith) htle ht0 (by linarith)
  calc 1.8 * (HansenBearingCapacityFactor.n_q x - 1) * tand x
      = 1.8 * ((HansenBearingCapacityFactor.n_q x - 1) * tand x) := by ring
  _ ≤ 1.8 * ((HansenBearingCapacityFactor.n_q y - 1) * tand y) := by
      exact mul_le_mul_of_nonneg_left hm (by norm_num)
  _ = 1.8 * (HansenBearingCapacityFactor.n_q y - 1) * tand y := by ring

/-- C5 amended (corrected): over (0, 45] degrees the raw (pre-rounding) Nq of
both methods and the raw Terzaghi Ngamma of both variants are strictly
increasing in the friction angle; the returned, rounded Nq and Ngamma of both
methods are nondecreasing (the Hansen Ngamma consumes the already rounded Nq,
so it too is only nondecreasing); the returned Nc is not strictly increasing,
being constant on the tolerance window around zero. -/
theorem C5_amended :
    StrictMonoOn (fun phi => TerzaghiBCF.nqRaw (radOfDeg phi)) (Set.Ioc 0 45) ∧
    StrictMonoOn HansenBearingCapacityFactor.n_q_raw (Set.Ioc 0 45) ∧
    (∀ t, StrictMonoOn (TerzaghiBCF.ngammaRaw t) (Set.Ioc 0 45)) ∧
    MonotoneOn TerzaghiBCF.nq (Set.Ioc 0 45) ∧
    MonotoneOn HansenBearingCapacityFactor.n_q (Set.Ioc 0 45) ∧
    (∀ t, MonotoneOn (TerzaghiBCF.ngamma t) (Set.Ioc 0 45)) ∧
    MonotoneOn HansenBearingCapacityFactor.n_gamma_raw (Set.Ioc 0 45) ∧
    MonotoneOn HansenBearingCapacityFactor.n_gamma (Set.Ioc 0 45) := by
  refine ⟨?_, ?_, ?_, ?_, ?_, ?_, ?_, ?_⟩
  · intro x hx y hy hxy
    exact terzaghi_nqRaw_lt (radOfDeg_pos hx.1) (radOfDeg_lt hxy)
      (radOfDeg_le_pi_div_four hy.2)
  · intro x hx y hy hxy
    exact hansen_n_q_raw_lt hx.1 hxy hy.2
  · intro t x hx y hy hxy
    exact terzaghi_ngammaRaw_lt hx.1 hxy hy.2
  · intro x hx y hy hxy
    unfold TerzaghiBCF.nq
    rcases eq_or_lt_of_le hxy with h | h
    · rw [h]
    · exact roundDP_mono (terzaghi_nqRaw_lt (radOfDeg_pos hx.1) (radOfDeg_lt h)
        (radOfDeg_le_pi_div_four hy.2)).le
  · intro x hx y hy hxy
    unfold HansenBearingCapacityFactor.n_q
    rcases eq_or_lt_of_le hxy with h | h
    · rw [h]
    · exact roundDP_mono (hansen_n_q_raw_lt hx.1 h hy.2).le
  · intro t x hx y hy hxy
    unfold TerzaghiBCF.ngamma
    rcases eq_or_lt_of_le hxy with h | h
    · rw [h]
    · exact roundDP_mono (terzaghi_ngammaRaw_lt hx.1 h hy.2).le
  · intro x hx y hy hxy
    exact hansen_n_gamma_raw_le hx.1 hxy hy.2
  · intro x hx y hy hxy
    unfold HansenBearingCapacityFactor.n_gamma
    exact roundDP_mono (hansen_n_gamma_raw_le hx.1 hxy hy.2)

/-- C5 witness: the amended monotonicity statements instantiated at the
concrete friction angles 10 < 20 degrees. -/
theorem C5_witness :
    TerzaghiBCF.nqRaw (radOfDeg 10) < TerzaghiBCF.nqRaw (radOfDeg 20) ∧
    HansenBearingCapacityFactor.n_q_raw 10 < HansenBearingCapacityFactor.n_q_raw 20 ∧
    HansenBearingCapacityFactor.n_q 10 ≤ HansenBearingCapacityFactor.n_q 20 :=
  ⟨C5_amended.1 (by norm_num [Set.mem_Ioc]) (by norm_num [Set.mem_Ioc]) (by norm_num),
    C5_amended.2.1 (by norm_num [Set.mem_Ioc]) (by norm_num [Set.mem_Ioc]) (by norm_num),
    C5_amended.2.2.2.2.1 (by norm_num [Set.mem_Ioc]) (by norm_num [Set.mem_Ioc])
      (by norm_num)⟩
